import Mathlib

/-!
Verification of the click-counter service (`src/main.py`): the
local/remote reconciliation engine (`sync_databases`), the local counter
operations (`record_click`, the read-or-init block of `auth_endpoint`,
`get_stats`) and the Telegram WebApp signature check
(`check_webapp_signature`).

Databases are modelled as association lists of rows keyed by `user_id`;
the external `hashlib`/`hmac` library calls are embedded by a full
executable implementation of SHA-256 and HMAC-SHA-256 (FIPS 180-4 /
RFC 2104), so every verdict can be evaluated on concrete inputs.
-/

namespace ClickSync

set_option maxRecDepth 100000

/-! ### Bytes and 32-bit words (machine arithmetic as `Nat` mod 2^32) -/

def w32 (n : Nat) : Nat := n % 4294967296

def rotr (n x : Nat) : Nat := w32 ((x >>> n) ||| (x <<< (32 - n)))

def smallS0 (x : Nat) : Nat := (rotr 7 x) ^^^ (rotr 18 x) ^^^ (x >>> 3)

def smallS1 (x : Nat) : Nat := (rotr 17 x) ^^^ (rotr 19 x) ^^^ (x >>> 10)

def bigS0 (x : Nat) : Nat := (rotr 2 x) ^^^ (rotr 13 x) ^^^ (rotr 22 x)

def bigS1 (x : Nat) : Nat := (rotr 6 x) ^^^ (rotr 11 x) ^^^ (rotr 25 x)

def chF (e f g : Nat) : Nat := (e &&& f) ^^^ ((e ^^^ 4294967295) &&& g)

def majF (a b c : Nat) : Nat := (a &&& b) ^^^ (a &&& c) ^^^ (b &&& c)

/-- Big-endian byte expansion of a natural number to `k` bytes. -/
def natToBytesBE : Nat → Nat → List Nat
  | 0, _ => []
  | k + 1, n => natToBytesBE k (n / 256) ++ [n % 256]

/-- Group a byte list into big-endian 32-bit words. -/
def bytesToWords : List Nat → List Nat
  | b0 :: b1 :: b2 :: b3 :: rest =>
      (((b0 * 256 + b1) * 256 + b2) * 256 + b3) :: bytesToWords rest
  | _ => []

/-! ### SHA-256 (FIPS 180-4) -/

def shaK : List Nat := [
  1116352408, 1899447441, 3049323471, 3921009573, 961987163, 1508970993,
  2453635748, 2870763221, 3624381080, 310598401, 607225278, 1426881987,
  1925078388, 2162078206, 2614888103, 3248222580, 3835390401, 4022224774,
  264347078, 604807628, 770255983, 1249150122, 1555081692, 1996064986,
  2554220882, 2821834349, 2952996808, 3210313671, 3336571891, 3584528711,
  113926993, 338241895, 666307205, 773529912, 1294757372, 1396182291,
  1695183700, 1986661051, 2177026350, 2456956037, 2730485921, 2820302411,
  3259730800, 3345764771, 3516065817, 3600352804, 4094571909, 275423344,
  430227734, 506948616, 659060556, 883997877, 958139571, 1322822218,
  1537002063, 1747873779, 1955562222, 2024104815, 2227730452, 2361852424,
  2428436474, 2756734187, 3204031479, 3329325298]

structure Hash8 where
  a : Nat
  b : Nat
  c : Nat
  d : Nat
  e : Nat
  f : Nat
  g : Nat
  h : Nat
deriving Repr, DecidableEq

def shaH0 : Hash8 :=
  ⟨1779033703, 3144134277, 1013904242, 2773480762, 1359893119, 2600822924,
   528734635, 1541459225⟩

/-- Append the SHA-256 padding: `0x80`, zeros to 56 mod 64, 8-byte
big-endian bit length. -/
def padMessage (msg : List Nat) : List Nat :=
  let L := msg.length
  let k := (119 - L % 64) % 64
  msg ++ 128 :: List.replicate k 0 ++ natToBytesBE 8 (L * 8)

/-- Split into 64-byte blocks (fuel-driven; fuel is an upper bound on the
number of blocks plus one). -/
def chunk64 : Nat → List Nat → List (List Nat)
  | 0, _ => []
  | _ + 1, [] => []
  | fuel + 1, l => l.take 64 :: chunk64 fuel (l.drop 64)

/-- Extend the 16 message words to the 64-entry message schedule. -/
def scheduleStep (w : List Nat) : List Nat :=
  let i := w.length
  w ++ [w32 (w.getD (i - 16) 0 + smallS0 (w.getD (i - 15) 0) +
             w.getD (i - 7) 0 + smallS1 (w.getD (i - 2) 0))]

def buildSchedule (w16 : List Nat) : List Nat :=
  (List.range 48).foldl (fun w _ => scheduleStep w) w16

def compressStep (st : Hash8) (kw : Nat × Nat) : Hash8 :=
  let t1 := w32 (st.h + bigS1 st.e + chF st.e st.f st.g + kw.1 + kw.2)
  let t2 := w32 (bigS0 st.a + majF st.a st.b st.c)
  ⟨w32 (t1 + t2), st.a, st.b, st.c, w32 (st.d + t1), st.e, st.f, st.g⟩

def processBlock (h : Hash8) (block : List Nat) : Hash8 :=
  let w := buildSchedule (bytesToWords block)
  let st := (shaK.zip w).foldl compressStep h
  ⟨w32 (h.a + st.a), w32 (h.b + st.b), w32 (h.c + st.c), w32 (h.d + st.d),
   w32 (h.e + st.e), w32 (h.f + st.f), w32 (h.g + st.g), w32 (h.h + st.h)⟩

/-- SHA-256 digest of a byte list, as 32 bytes. -/
def sha256 (msg : List Nat) : List Nat :=
  let padded := padMessage msg
  let blocks := chunk64 (padded.length + 1) padded
  let h := blocks.foldl processBlock shaH0
  natToBytesBE 4 h.a ++ natToBytesBE 4 h.b ++ natToBytesBE 4 h.c ++
  natToBytesBE 4 h.d ++ natToBytesBE 4 h.e ++ natToBytesBE 4 h.f ++
  natToBytesBE 4 h.g ++ natToBytesBE 4 h.h

/-! ### HMAC-SHA-256 (RFC 2104), hex encoding, UTF-8 -/

def hmacSha256 (key msg : List Nat) : List Nat :=
  let k0 := if 64 < key.length then sha256 key else key
  let k := k0 ++ List.replicate (64 - k0.length) 0
  let ipad := k.map (fun b => b ^^^ 54)
  let opad := k.map (fun b => b ^^^ 92)
  sha256 (opad ++ sha256 (ipad ++ msg))

def hexDigit (n : Nat) : Char :=
  if n < 10 then Char.ofNat (48 + n) else Char.ofNat (87 + n)

/-- Lowercase hex encoding of a byte list, as characters
(Python's `hexdigest`). -/
def bytesToHexChars (bs : List Nat) : List Char :=
  bs.foldr (fun b acc => hexDigit (b / 16) :: hexDigit (b % 16) :: acc) []

/-- UTF-8 bytes of one character. -/
def utf8Char (c : Char) : List Nat :=
  let n := c.toNat
  if n < 128 then [n]
  else if n < 2048 then [192 + n / 64, 128 + n % 64]
  else if n < 65536 then [224 + n / 4096, 128 + (n / 64) % 64, 128 + n % 64]
  else [240 + n / 262144, 128 + (n / 4096) % 64, 128 + (n / 64) % 64,
        128 + n % 64]

/-- UTF-8 encoding of a character list (Python's `str.encode()`). -/
def utf8 (cs : List Char) : List Nat := (cs.map utf8Char).flatten

/-! ### `urllib.parse.parse_qsl` with its default arguments

`main.py` calls `parse_qsl(init_data)` and `dict(parse_qsl(...))`.
Defaults: split on `&`; pairs without `=` or with an empty value are
dropped (`keep_blank_values=False`); names and values are decoded with
`unquote_plus`.  The percent decoder is modelled at the byte/ASCII level
(Python additionally UTF-8-decodes the decoded bytes; the two agree on
the ASCII payloads considered in the theorems below). -/

def isHexDigitCh (c : Char) : Bool :=
  (48 ≤ c.toNat && c.toNat ≤ 57) || (97 ≤ c.toNat && c.toNat ≤ 102) ||
  (65 ≤ c.toNat && c.toNat ≤ 70)

def hexVal (c : Char) : Nat :=
  if c.toNat ≤ 57 then c.toNat - 48
  else if 97 ≤ c.toNat then c.toNat - 87
  else c.toNat - 55

def percentDecode : List Char → List Char
  | [] => []
  | '%' :: h1 :: h2 :: rest =>
      if isHexDigitCh h1 && isHexDigitCh h2 then
        Char.ofNat (16 * hexVal h1 + hexVal h2) :: percentDecode rest
      else '%' :: percentDecode (h1 :: h2 :: rest)
  | c :: rest => c :: percentDecode rest

def unquotePlus (cs : List Char) : List Char :=
  percentDecode (cs.map fun c => if c = '+' then ' ' else c)

/-- Split on `&` (Python `qs.split('&')`; an empty input yields one
empty chunk, as in Python). -/
def splitAmp : List Char → List (List Char)
  | [] => [[]]
  | c :: rest =>
      match splitAmp rest with
      | [] => if c = '&' then [[], []] else [[c]]
      | h :: t => if c = '&' then [] :: h :: t else (c :: h) :: t

/-- Python `name_value.split('=', 1)`: `none` when no `=` occurs. -/
def splitEq1 : List Char → Option (List Char × List Char)
  | [] => none
  | c :: rest =>
      if c = '=' then some ([], rest)
      else match splitEq1 rest with
        | none => none
        | some (k, v) => some (c :: k, v)

def parsePair (nv : List Char) : Option (List Char × List Char) :=
  if nv = [] then none
  else match splitEq1 nv with
    | none => none
    | some (n, v) =>
        if v = [] then none else some (unquotePlus n, unquotePlus v)

/-- Model of `parse_qsl(init_data)` as called on line 69 / 156 of `main.py`. -/
def parse_qsl (cs : List Char) : List (List Char × List Char) :=
  (splitAmp cs).filterMap parsePair

/-! ### Python `dict` over a pair list: last value wins, first-insertion
key order. -/

def dictInsert (d : List (List Char × List Char))
    (kv : List Char × List Char) : List (List Char × List Char) :=
  if d.any (fun p => p.1 == kv.1) then
    d.map fun p => if p.1 == kv.1 then (p.1, kv.2) else p
  else d ++ [kv]

def pyDict (ps : List (List Char × List Char)) :
    List (List Char × List Char) :=
  ps.foldl dictInsert []

def dictGet (d : List (List Char × List Char)) (k : List Char) :
    Option (List Char) :=
  (d.find? fun p => p.1 == k).map (·.2)

def dictRemove (d : List (List Char × List Char)) (k : List Char) :
    List (List Char × List Char) :=
  d.filter fun p => !(p.1 == k)

/-! ### `check_webapp_signature` (main.py lines 56-84) -/

/-- Lexicographic (code-point) order on keys: Python `sorted(...,
key=itemgetter(0))` string comparison. -/
def charListLt : List Char → List Char → Bool
  | [], [] => false
  | [], _ :: _ => true
  | _ :: _, [] => false
  | a :: as, b :: bs =>
      if a.toNat < b.toNat then true
      else if b.toNat < a.toNat then false
      else charListLt as bs

def insertByKey (p : List Char × List Char) :
    List (List Char × List Char) → List (List Char × List Char)
  | [] => [p]
  | q :: qs => if charListLt p.1 q.1 then p :: q :: qs else q :: insertByKey p qs

def sortByKey (ps : List (List Char × List Char)) :
    List (List Char × List Char) :=
  ps.foldr insertByKey []

/-- Line 75: join the sorted pairs as `k=v` lines separated by newlines. -/
def joinPairs : List (List Char × List Char) → List Char
  | [] => []
  | [p] => p.1 ++ '=' :: p.2
  | p :: rest => p.1 ++ '=' :: p.2 ++ '\n' :: joinPairs rest

def hashKey : List Char := "hash".data

/-- The canonical data-check string built on lines 75-77: remaining
pairs after popping `hash`, sorted by key, joined with newlines. -/
def dataCheckString (parsed : List (List Char × List Char)) : List Char :=
  joinPairs (sortByKey (dictRemove parsed hashKey))

/-- Lines 78-83: secret key = HMAC-SHA256(key="WebAppData", msg=token);
expected hash = hex(HMAC-SHA256(secret key, data-check string)). -/
def telegramMacHex (token dcs : List Char) : List Char :=
  bytesToHexChars (hmacSha256 (hmacSha256 (utf8 "WebAppData".data) (utf8 token))
    (utf8 dcs))

/-- Lines 72-84, after the payload has been parsed into a dict. -/
def check_core (token : List Char)
    (parsed : List (List Char × List Char)) : Bool :=
  match dictGet parsed hashKey with
  | none => false
  | some received => telegramMacHex token (dataCheckString parsed) == received

/-- Model of `check_webapp_signature(token, init_data)` (main.py lines 56-84). -/
def check_webapp_signature (token initData : List Char) : Bool :=
  check_core token (pyDict (parse_qsl initData))

/-! ### Counter tables

Both `local_clicks` and `clicks` have schema
`(user_id INTEGER PRIMARY KEY, username TEXT, clicks INTEGER)`; a table
is an association list of rows.  `dbLookup` is
`SELECT ... WHERE user_id = ?`. -/

structure Row where
  user_id : Int
  username : List Char
  clicks : Int
deriving Repr, DecidableEq

def dbLookup : List Row → Int → Option Row
  | [], _ => none
  | r :: rest, uid => if r.user_id == uid then some r else dbLookup rest uid

/-- The count a user's row holds (0 when the row is absent). -/
def countOf (db : List Row) (uid : Int) : Int :=
  (dbLookup db uid).elim 0 Row.clicks

/-- Keys of a SQL table with `user_id INTEGER PRIMARY KEY` are unique. -/
def WF (db : List Row) : Prop := (db.map Row.user_id).Nodup

/-! ### Local-store operations (main.py lines 167-175, 180-189, 192-198,
206-210) -/

/-- Model of `record_click` (lines 180-189): `UPDATE local_clicks SET clicks =
clicks + 1 WHERE user_id = ?`; if `rowcount == 0`, `INSERT (user_id,
"Unknown", 1)`. -/
def record_click (db : List Row) (uid : Int) : List Row :=
  if db.any (fun r => r.user_id == uid) then
    db.map fun r =>
      if r.user_id == uid then ⟨r.user_id, r.username, r.clicks + 1⟩ else r
  else db ++ [⟨uid, "Unknown".data, 1⟩]

/-- The local update performed by `handle_webapp_data` (lines 206-210);
the source duplicates the SQL of `record_click` verbatim. -/
def handle_webapp_data_update (db : List Row) (uid : Int) : List Row :=
  if db.any (fun r => r.user_id == uid) then
    db.map fun r =>
      if r.user_id == uid then ⟨r.user_id, r.username, r.clicks + 1⟩ else r
  else db ++ [⟨uid, "Unknown".data, 1⟩]

/-- The read-or-init block of `auth_endpoint` (lines 167-175): return the
existing count, or insert `(user_id, username, 0)` when absent. -/
def read_or_init (db : List Row) (uid : Int) (username : List Char) :
    Int × List Row :=
  match dbLookup db uid with
  | some r => (r.clicks, db)
  | none => (0, db ++ [⟨uid, username, 0⟩])

/-- Stable descending insertion by `clicks`: deterministic model of
`ORDER BY clicks DESC` (the SQL leaves the order of tied rows
unspecified; see `IsOrderByClicksDescLimit` for the relational
contract). -/
def insertByClicks (r : Row) : List Row → List Row
  | [] => [r]
  | q :: qs =>
      if q.clicks < r.clicks then r :: q :: qs else q :: insertByClicks r qs

def sortByClicksDesc (db : List Row) : List Row :=
  db.foldr insertByClicks []

/-- Model of `get_stats` (lines 192-198): `SELECT username, clicks FROM
local_clicks ORDER BY clicks DESC`. -/
def get_stats (db : List Row) : List (List Char × Int) :=
  (sortByClicksDesc db).map fun r => (r.username, r.clicks)

/-- Model of `SELECT * FROM local_clicks ORDER BY clicks DESC LIMIT n`
(line 100, n = 100): deterministic model, `take n` of the sorted table. -/
def topNImpl (db : List Row) (n : Nat) : List Row :=
  (sortByClicksDesc db).take n

/-- Rows sorted by `clicks` descending. -/
def SortedDescClicks (l : List Row) : Prop :=
  List.Pairwise (fun a b => b.clicks ≤ a.clicks) l

/-- The relational contract of `ORDER BY clicks DESC LIMIT n`: the
result is the first `n` rows of some clicks-descending permutation of
the table.  The SQL fixes nothing more; in particular it does not fix
the relative order of tied rows. -/
def IsOrderByClicksDescLimit (db : List Row) (n : Nat) (out : List Row) :
    Prop :=
  ∃ sorted : List Row,
    db.Perm sorted ∧ SortedDescClicks sorted ∧ out = sorted.take n

/-- Ties broken by `user_id` ascending (what the spec asserts of
`topN`). -/
def TieBrokenByUid (l : List Row) : Prop :=
  List.Pairwise
    (fun a b => b.clicks < a.clicks ∨ (a.clicks = b.clicks ∧ a.user_id < b.user_id)) l

/-! ### The reconciliation engine `sync_databases` (lines 96-141)

One tick works on the snapshot returned by the top-100 query, the local
table as it stands when the later statements run, and the remote table.
Remote calls are network operations that can raise; `SyncEnv` injects
those failures (per-user for the `SELECT`/`UPDATE`/`INSERT` of the merge
loop, plus the remote `commit` and the final `SELECT * FROM clicks`).
The single `try/except` of the source wraps the whole tick, so an error
aborts the remaining statements; the error value records the
connection-visible state at that point. -/

structure SyncEnv where
  fail : Int → Bool
  failCommit : Bool
  failReadAll : Bool

structure SyncErr where
  localState : List Row
  remoteState : List Row
deriving Repr, DecidableEq

def dbUpdateClicks (db : List Row) (uid : Int) (v : Int) : List Row :=
  db.map fun r => if r.user_id == uid then ⟨r.user_id, r.username, v⟩ else r

/-- Lines 107-114, one row of the merge loop: `SELECT clicks FROM clicks
WHERE user_id = ?`, then `UPDATE` (adding the local clicks) or `INSERT`.
On failure the error carries the remote state reached so far. -/
def merge_one (env : SyncEnv) (remote : List Row) (row : Row) :
    Except (List Row) (List Row) :=
  if env.fail row.user_id then .error remote
  else match dbLookup remote row.user_id with
    | some r => .ok (dbUpdateClicks remote row.user_id (r.clicks + row.clicks))
    | none => .ok (remote ++ [⟨row.user_id, row.username, row.clicks⟩])

/-- Lines 103-114: the merge loop over the snapshot, aborting at the
first raised error (there is no per-row handler in the source). -/
def merge_all (env : SyncEnv) (remote : List Row) :
    List Row → Except (List Row) (List Row)
  | [] => .ok remote
  | row :: rest =>
      match merge_one env remote row with
      | .error e => .error e
      | .ok remote' => merge_all env remote' rest

/-- Lines 118-120: `DELETE FROM local_clicks WHERE user_id IN (...)` —
unconditional removal of every snapshotted `user_id`, with no check that
the row's count is unchanged since the snapshot. -/
def remove_snapshotted (snap localDb : List Row) : List Row :=
  localDb.filter fun r => !(snap.any fun s => s.user_id == r.user_id)

/-- Lines 130-134: `INSERT ... ON CONFLICT(user_id) DO UPDATE SET
clicks = excluded.clicks` — on conflict only `clicks` is overwritten,
the stored username is kept. -/
def upsertClicks (db : List Row) (row : Row) : List Row :=
  if db.any (fun r => r.user_id == row.user_id) then
    db.map fun r =>
      if r.user_id == row.user_id then ⟨r.user_id, r.username, row.clicks⟩ else r
  else db ++ [row]

/-- One reconciliation tick (lines 98-136), given the snapshot `snap`
produced by the top-100 query: merge every snapshot row into the remote
table, commit, delete the snapshotted rows from the local table, then
copy every remote row back into the local table. -/
def sync_tick (snap localDb remote : List Row) (env : SyncEnv) :
    Except SyncErr (List Row × List Row) :=
  if snap = [] then .ok (localDb, remote)
  else match merge_all env remote snap with
    | .error r' => .error ⟨localDb, r'⟩
    | .ok remote' =>
        if env.failCommit then .error ⟨localDb, remote'⟩
        else if env.failReadAll then
          .error ⟨remove_snapshotted snap localDb, remote'⟩
        else
          .ok (remote'.foldl upsertClicks (remove_snapshotted snap localDb),
               remote')

/-- Lines 96-141: the loop body, with the `try/except` of the source:
a raised error is logged and the connection-visible state is kept; the
loop then sleeps and runs the next tick.  `choose` models the top-100
query against the current local table. -/
def sync_loop_body (choose : List Row → List Row) (env : SyncEnv)
    (s : List Row × List Row) : List Row × List Row :=
  match sync_tick (choose s.1) s.1 s.2 env with
  | .ok s' => s'
  | .error e => (e.localState, e.remoteState)

/-- The ticks the loop performs for a given finite prefix of the
environment stream: one `sync_loop_body` per tick, never terminating on
an error. -/
def run_sync_loop (choose : List Row → List Row) :
    List SyncEnv → List Row × List Row → List Row × List Row
  | [], s => s
  | env :: rest, s => run_sync_loop choose rest (sync_loop_body choose env s)

/-! ### A model of `json.loads` on the fragment the endpoint handles

Values: `null`, booleans, integers, strings (with the simple escapes),
and objects.  This covers the space of `user` claims the authentication
claims quantify over; other JSON shapes (arrays, floats, `\u` escapes)
are outside the model and are not used by any theorem below. -/

inductive Json where
  | null
  | bool (b : Bool)
  | num (n : Int)
  | str (s : List Char)
  | obj (fields : List (List Char × Json))

def lbrace : Char := Char.ofNat 123

def rbrace : Char := Char.ofNat 125

def skipWs : List Char → List Char
  | [] => []
  | c :: rest =>
      if c = ' ' ∨ c = '\t' ∨ c = '\n' ∨ c = '\r' then skipWs rest
      else c :: rest

/-- String body after an opening quote; returns the content and the
tail after the closing quote. -/
def parseJStr : Nat → List Char → Option (List Char × List Char)
  | 0, _ => none
  | _ + 1, [] => none
  | fuel + 1, c :: rest =>
      if c = '"' then some ([], rest)
      else if c = '\\' then
        match rest with
        | [] => none
        | e :: rest' =>
            let dec : Option Char :=
              if e = 'n' then some '\n' else if e = 't' then some '\t'
              else if e = 'r' then some '\r' else if e = '"' then some '"'
              else if e = '\\' then some '\\' else if e = '/' then some '/'
              else none
            match dec with
            | none => none
            | some ch => (parseJStr fuel rest').map fun p => (ch :: p.1, p.2)
      else (parseJStr fuel rest).map fun p => (c :: p.1, p.2)

def expectLit : List Char → List Char → Option (List Char)
  | [], rest => some rest
  | _, [] => none
  | l :: ls, c :: cs => if c = l then expectLit ls cs else none

def isDigitCh (c : Char) : Bool := 48 ≤ c.toNat && c.toNat ≤ 57

def takeDigits : List Char → List Char × List Char
  | [] => ([], [])
  | c :: rest =>
      if isDigitCh c then
        let p := takeDigits rest
        (c :: p.1, p.2)
      else ([], c :: rest)

def digitsVal (ds : List Char) : Nat :=
  ds.foldl (fun a c => a * 10 + (c.toNat - 48)) 0

mutual

def parseJsonV : Nat → List Char → Option (Json × List Char)
  | 0, _ => none
  | fuel + 1, cs =>
      match skipWs cs with
      | [] => none
      | c :: rest =>
          if c = '"' then (parseJStr (fuel + 1) rest).map fun p => (.str p.1, p.2)
          else if c = 't' then (expectLit "rue".data rest).map fun r => (.bool true, r)
          else if c = 'f' then (expectLit "alse".data rest).map fun r => (.bool false, r)
          else if c = 'n' then (expectLit "ull".data rest).map fun r => (.null, r)
          else if c = '-' then
            match takeDigits rest with
            | ([], _) => none
            | (ds, r) => some (.num (-(digitsVal ds : Int)), r)
          else if isDigitCh c then
            match takeDigits (c :: rest) with
            | (ds, r) => some (.num (digitsVal ds), r)
          else if c = lbrace then
            match skipWs rest with
            | c' :: rest' =>
                if c' = rbrace then some (.obj [], rest')
                else parseObjFields fuel (c' :: rest')
            | [] => none
          else none

/-- One or more `"key": value` fields followed by a closing brace. -/
def parseObjFields : Nat → List Char → Option (Json × List Char)
  | 0, _ => none
  | fuel + 1, cs =>
      match skipWs cs with
      | '"' :: rest =>
          match parseJStr (fuel + 1) rest with
          | none => none
          | some (key, r1) =>
              match skipWs r1 with
              | ':' :: r2 =>
                  match parseJsonV fuel r2 with
                  | none => none
                  | some (v, r3) =>
                      match skipWs r3 with
                      | ',' :: r4 =>
                          match parseObjFields fuel r4 with
                          | some (.obj fs, r5) => some (.obj ((key, v) :: fs), r5)
                          | _ => none
                      | c5 :: r5 =>
                          if c5 = rbrace then some (.obj [(key, v)], r5) else none
                      | [] => none
              | _ => none
      | _ => none

end

/-- Model of `json.loads` over the modelled fragment: parse one value and require
only whitespace after it. -/
def jsonLoads (s : List Char) : Option Json :=
  match parseJsonV (s.length + 1) s with
  | some (j, rest) => if skipWs rest = [] then some j else none
  | none => none

def jObjGet (fields : List (List Char × Json)) (k : List Char) :
    Option Json :=
  (fields.find? fun p => p.1 == k).map (·.2)

/-- Python `int(x)` on the modelled JSON values: ints pass through,
booleans coerce, numeric strings (optional sign and surrounding spaces)
convert, everything else raises. -/
def pyIntStr (s : List Char) : Option Int :=
  let t := skipWs s
  let core : Option (List Char) :=
    match t with
    | '-' :: rest => some rest
    | '+' :: rest => some rest
    | _ => some t
  match core with
  | none => none
  | some body =>
      match takeDigits body with
      | ([], _) => none
      | (ds, r) =>
          if skipWs r = [] then
            match t with
            | '-' :: _ => some (-(digitsVal ds : Int))
            | _ => some (digitsVal ds)
          else none

def pyInt : Json → Option Int
  | .num n => some n
  | .bool b => some (if b then 1 else 0)
  | .str s => pyIntStr s
  | _ => none

/-! ### `auth_endpoint` (main.py lines 144-177) -/

/-- The response of one `auth_endpoint` call: a 200 answer carrying the
user id, the click count and the updated local table; an
`HTTPException` the handler raises deliberately; or an exception the
handler does not catch (propagated out of the route as a server
error). -/
inductive AuthOutcome where
  | ok (user_id clicks : Int) (db : List Row)
  | httpError (status : Nat)
  | unhandled (exc : List Char)
deriving DecidableEq

/-- Model of `auth_endpoint` (lines 144-177).  A `none` initData models a request
body without the field.  `int(user_obj["id"])` on line 164 sits outside
the `try` of lines 160-163: a subscript of a non-object raises
`TypeError`, a missing `id` key raises `KeyError`, and a non-numeric
`id` raises `ValueError` — all uncaught. -/
def auth_endpoint (token : List Char) (initData : Option (List Char))
    (db : List Row) : AuthOutcome :=
  match initData with
  | none => .httpError 400
  | some s =>
      if s = [] then .httpError 400
      else if check_webapp_signature token s = false then .httpError 403
      else
        match dictGet (pyDict (parse_qsl s)) "user".data with
        | none => .httpError 400
        | some u =>
            if u = [] then .httpError 400
            else
              match jsonLoads u with
              | none => .httpError 400
              | some (.obj fields) =>
                  match jObjGet fields "id".data with
                  | none => .unhandled "KeyError".data
                  | some v =>
                      match pyInt v with
                      | none => .unhandled "TypeError or ValueError".data
                      | some uid =>
                          let username :=
                            match jObjGet fields "username".data with
                            | some (.str nm) => nm
                            | _ => "Unknown".data
                          let p := read_or_init db uid username
                          .ok uid p.1 p.2
              | some _ => .unhandled "TypeError".data

/-! ### Concrete inputs used by the counterexamples and witnesses -/

def tokenS : List Char := "S".data

def envOk : SyncEnv := ⟨fun _ => false, false, false⟩

def envFailUser1 : SyncEnv := ⟨fun u => u == 1, false, false⟩

def envFailAll : SyncEnv := ⟨fun _ => true, false, false⟩

/-- Number of positions at which two equal-length strings differ. -/
def diffCount (a b : List Char) : Nat :=
  ((a.zip b).filter fun p => !(p.1 == p.2)).length

/-- Correct Telegram hash of the check string `a=1`. -/
def macDup : List Char := telegramMacHex tokenS "a=1".data

/-- A correctly signed payload carrying a duplicated field `a`. -/
def payloadDup : List Char := "a=1&a=1&hash=".data ++ macDup

/-- Mutation of `payloadDup` changing a single byte of the first (shadowed) `a` value
changed. -/
def payloadDupMut : List Char := "a=2&a=1&hash=".data ++ macDup

/-- The section-8 scenario payload `id=7&username=bob&hash=<correct>`. -/
def macScenario : List Char := telegramMacHex tokenS "id=7\nusername=bob".data

def payloadScenario : List Char := "id=7&username=bob&hash=".data ++ macScenario

/-- A `user` claim that is valid JSON but has no `id` member. -/
def userNoId : List Char := "\x7b\"username\":\"bob\"\x7d".data

def macNoId : List Char := telegramMacHex tokenS ("user=".data ++ userNoId)

/-- A correctly signed payload whose `user` object lacks `id`. -/
def payloadNoId : List Char :=
  "user=".data ++ userNoId ++ "&hash=".data ++ macNoId

/-- Total local clicks the snapshot attributes to a user (the snapshot
of a keyed table holds at most one row per user, in which case this is
that row's count). -/
def snapClicks (snap : List Row) (uid : Int) : Int :=
  ((snap.filter fun r => r.user_id == uid).map Row.clicks).sum

/-! ## Helper lemmas about table lookups and updates -/

theorem dbLookup_none_iff (db : List Row) (uid : Int) :
    dbLookup db uid = none ↔ (db.any fun r => r.user_id == uid) = false := by
  induction db with
  | nil => simp [dbLookup]
  | cons r rest ih =>
      by_cases h : (r.user_id == uid) = true
      · simp [dbLookup, h]
      · simp only [Bool.not_eq_true] at h
        simp [dbLookup, h, ih]

theorem uid_of_dbLookup_some (db : List Row) (u : Int) (r : Row)
    (h : dbLookup db u = some r) : r.user_id = u := by
  induction db with
  | nil => simp [dbLookup] at h
  | cons x rest ih =>
      by_cases hx : (x.user_id == u) = true
      · have : x = r := by simpa [dbLookup, hx] using h
        subst this
        exact eq_of_beq hx
      · simp only [Bool.not_eq_true] at hx
        exact ih (by simpa [dbLookup, hx] using h)

theorem dbLookup_cons (r : Row) (rest : List Row) (u : Int) :
    dbLookup (r :: rest) u
      = if (r.user_id == u) = true then some r else dbLookup rest u := rfl

theorem dbLookup_map_guard_ne (db : List Row) (w u : Int) (g : Row → Row)
    (hg : ∀ r, (g r).user_id = r.user_id) (hne : w ≠ u) :
    dbLookup (db.map fun r => if r.user_id == w then g r else r) u
      = dbLookup db u := by
  induction db with
  | nil => rfl
  | cons r rest ih =>
      simp only [List.map_cons]
      by_cases hw : (r.user_id == w) = true
      · have hru : r.user_id = w := eq_of_beq hw
        have h1 : ((g r).user_id == u) = false := by
          rw [hg r, hru]; exact beq_eq_false_iff_ne.mpr hne
        have h2 : (r.user_id == u) = false := by
          rw [hru]; exact beq_eq_false_iff_ne.mpr hne
        rw [if_pos hw, dbLookup_cons, dbLookup_cons, h1, h2,
          if_neg Bool.false_ne_true, if_neg Bool.false_ne_true, ih]
      · rw [if_neg hw, dbLookup_cons, dbLookup_cons]
        by_cases hu : (r.user_id == u) = true
        · rw [hu]; exact rfl
        · simp only [Bool.not_eq_true] at hu
          rw [hu, if_neg Bool.false_ne_true, if_neg Bool.false_ne_true, ih]

theorem dbLookup_map_guard_self (db : List Row) (w : Int) (g : Row → Row)
    (hg : ∀ r, (g r).user_id = r.user_id) (r : Row)
    (h : dbLookup db w = some r) :
    dbLookup (db.map fun x => if x.user_id == w then g x else x) w
      = some (g r) := by
  induction db with
  | nil => simp [dbLookup] at h
  | cons x rest ih =>
      simp only [List.map_cons]
      by_cases hw : (x.user_id == w) = true
      · have hxr : x = r := by simpa [dbLookup, hw] using h
        subst hxr
        have h1 : ((g x).user_id == w) = true := by rw [hg x]; exact hw
        rw [if_pos hw, dbLookup_cons, h1]
        exact if_pos rfl
      · rw [if_neg hw, dbLookup_cons]
        simp only [Bool.not_eq_true] at hw
        have h' : dbLookup rest w = some r := by
          rw [dbLookup_cons, hw, if_neg Bool.false_ne_true] at h
          exact h
        rw [hw, if_neg Bool.false_ne_true, ih h']

theorem dbLookup_append_none (db l : List Row) (u : Int)
    (h : dbLookup db u = none) : dbLookup (db ++ l) u = dbLookup l u := by
  induction db with
  | nil => rfl
  | cons r rest ih =>
      by_cases hr : (r.user_id == u) = true
      · simp [dbLookup, hr] at h
      · simp only [Bool.not_eq_true] at hr
        have h' : dbLookup rest u = none := by simpa [dbLookup, hr] using h
        simpa [dbLookup, hr] using ih h'

theorem dbLookup_append_some (db l : List Row) (u : Int) (r : Row)
    (h : dbLookup db u = some r) : dbLookup (db ++ l) u = some r := by
  induction db with
  | nil => simp [dbLookup] at h
  | cons x rest ih =>
      by_cases hx : (x.user_id == u) = true
      · have : x = r := by simpa [dbLookup, hx] using h
        subst this
        simp [dbLookup, hx]
      · simp only [Bool.not_eq_true] at hx
        have h' : dbLookup rest u = some r := by simpa [dbLookup, hx] using h
        simpa [dbLookup, hx] using ih h'

theorem not_mem_uid_of_dbLookup_none (db : List Row) (u : Int)
    (h : dbLookup db u = none) : u ∉ db.map Row.user_id := by
  induction db with
  | nil => simp
  | cons r rest ih =>
      by_cases hr : (r.user_id == u) = true
      · simp [dbLookup, hr] at h
      · simp only [Bool.not_eq_true] at hr
        have h' : dbLookup rest u = none := by simpa [dbLookup, hr] using h
        have hne : r.user_id ≠ u := ne_of_beq_false hr
        simp only [List.map_cons, List.mem_cons]
        rintro (he | hm)
        · exact hne he.symm
        · exact ih h' hm

theorem dbLookup_some_of_any (db : List Row) (u : Int)
    (h : (db.any fun r => r.user_id == u) = true) :
    ∃ r, dbLookup db u = some r := by
  cases hl : dbLookup db u with
  | some r => exact ⟨r, rfl⟩
  | none =>
      rw [(dbLookup_none_iff db u).mp hl] at h
      cases h

/-! ## Helper lemmas about `upsertClicks` and the copy-back fold -/

theorem dbLookup_upsert_ne (dst : List Row) (row : Row) (u : Int)
    (hne : row.user_id ≠ u) :
    dbLookup (upsertClicks dst row) u = dbLookup dst u := by
  unfold upsertClicks
  by_cases h : (dst.any fun r => r.user_id == row.user_id) = true
  · simp only [h, if_true]
    exact dbLookup_map_guard_ne dst row.user_id u
      (fun r => ⟨r.user_id, r.username, row.clicks⟩) (fun r => rfl) hne
  · simp only [Bool.not_eq_true] at h
    simp only [h, Bool.false_eq_true, if_false]
    cases hl : dbLookup dst u with
    | some r => exact dbLookup_append_some dst [row] u r hl
    | none =>
        rw [dbLookup_append_none dst [row] u hl]
        have : (row.user_id == u) = false := beq_eq_false_iff_ne.mpr hne
        simp [dbLookup, this]

theorem dbLookup_upsert_self (dst : List Row) (row : Row) :
    ∃ r', dbLookup (upsertClicks dst row) row.user_id = some r' ∧
      r'.clicks = row.clicks := by
  unfold upsertClicks
  by_cases h : (dst.any fun r => r.user_id == row.user_id) = true
  · simp only [h, if_true]
    obtain ⟨r, hr⟩ := dbLookup_some_of_any dst row.user_id h
    exact ⟨⟨r.user_id, r.username, row.clicks⟩,
      dbLookup_map_guard_self dst row.user_id
        (fun x => ⟨x.user_id, x.username, row.clicks⟩) (fun x => rfl) r hr, rfl⟩
  · simp only [Bool.not_eq_true] at h
    simp only [h, Bool.false_eq_true, if_false]
    refine ⟨row, ?_, rfl⟩
    rw [dbLookup_append_none dst [row] row.user_id ((dbLookup_none_iff _ _).mpr h)]
    simp [dbLookup]

theorem dbLookup_foldl_upsert_not_mem (src : List Row) :
    ∀ dst u, u ∉ src.map Row.user_id →
      dbLookup (src.foldl upsertClicks dst) u = dbLookup dst u := by
  induction src with
  | nil => intro dst u _; rfl
  | cons row rest ih =>
      intro dst u h
      simp only [List.map_cons, List.mem_cons] at h
      push_neg at h
      rw [List.foldl_cons, ih (upsertClicks dst row) u h.2,
        dbLookup_upsert_ne dst row u (fun he => h.1 he.symm)]

theorem dbLookup_foldl_upsert (src : List Row) :
    ∀ dst u r, (src.map Row.user_id).Nodup → dbLookup src u = some r →
      ∃ r', dbLookup (src.foldl upsertClicks dst) u = some r' ∧
        r'.clicks = r.clicks := by
  induction src with
  | nil => intro dst u r _ h; simp [dbLookup] at h
  | cons row rest ih =>
      intro dst u r hnd h
      simp only [List.map_cons, List.nodup_cons] at hnd
      rw [List.foldl_cons]
      by_cases hru : (row.user_id == u) = true
      · have hru' : row.user_id = u := eq_of_beq hru
        have hr : row = r := by simpa [dbLookup, hru] using h
        subst hr
        have hnotin : u ∉ rest.map Row.user_id := hru' ▸ hnd.1
        rw [dbLookup_foldl_upsert_not_mem rest (upsertClicks dst row) u hnotin]
        obtain ⟨r', hr', hclicks⟩ := dbLookup_upsert_self dst row
        exact ⟨r', hru' ▸ hr', hclicks⟩
      · simp only [Bool.not_eq_true] at hru
        have h' : dbLookup rest u = some r := by simpa [dbLookup, hru] using h
        exact ih (upsertClicks dst row) u r hnd.2 h'

/-! ## Helper lemmas about the merge loop -/

theorem merge_one_lookup_ne (env : SyncEnv) (remote : List Row) (row : Row)
    (remote₂ : List Row) (h : merge_one env remote row = .ok remote₂)
    (u : Int) (hne : row.user_id ≠ u) :
    dbLookup remote₂ u = dbLookup remote u := by
  unfold merge_one at h
  by_cases hf : env.fail row.user_id = true
  · rw [if_pos hf] at h; exact absurd h (by simp)
  · rw [if_neg hf] at h
    cases hl : dbLookup remote row.user_id with
    | some r =>
        rw [hl] at h
        rw [← Except.ok.inj h]
        unfold dbUpdateClicks
        exact dbLookup_map_guard_ne remote row.user_id u _ (fun x => rfl) hne
    | none =>
        rw [hl] at h
        rw [← Except.ok.inj h]
        cases hlu : dbLookup remote u with
        | some r => rw [dbLookup_append_some remote _ u r hlu]
        | none =>
            rw [dbLookup_append_none remote _ u hlu]
            have hb : (row.user_id == u) = false := beq_eq_false_iff_ne.mpr hne
            simp [dbLookup, hb]

theorem merge_one_count_self (env : SyncEnv) (remote : List Row) (row : Row)
    (remote₂ : List Row) (h : merge_one env remote row = .ok remote₂) :
    countOf remote₂ row.user_id = countOf remote row.user_id + row.clicks ∧
    (dbLookup remote₂ row.user_id).isSome = true := by
  unfold merge_one at h
  by_cases hf : env.fail row.user_id = true
  · rw [if_pos hf] at h; exact absurd h (by simp)
  · rw [if_neg hf] at h
    cases hl : dbLookup remote row.user_id with
    | some r =>
        rw [hl] at h
        rw [← Except.ok.inj h]
        have hup := dbLookup_map_guard_self remote row.user_id
          (fun x => ⟨x.user_id, x.username, r.clicks + row.clicks⟩)
          (fun x => rfl) r hl
        unfold dbUpdateClicks
        constructor
        · unfold countOf
          rw [hup, hl]
          rfl
        · rw [hup]; rfl
    | none =>
        rw [hl] at h
        rw [← Except.ok.inj h]
        have happ := dbLookup_append_none remote
          [⟨row.user_id, row.username, row.clicks⟩] row.user_id hl
        have hself : dbLookup [(⟨row.user_id, row.username, row.clicks⟩ : Row)]
            row.user_id = some ⟨row.user_id, row.username, row.clicks⟩ := by
          simp [dbLookup]
        constructor
        · unfold countOf
          rw [happ, hself, hl]
          simp [Option.elim]
        · rw [happ, hself]; rfl

theorem map_uid_map_guard (db : List Row) (w : Int) (g : Row → Row)
    (hg : ∀ r, (g r).user_id = r.user_id) :
    ((db.map fun r => if r.user_id == w then g r else r).map Row.user_id)
      = db.map Row.user_id := by
  induction db with
  | nil => rfl
  | cons r rest ih =>
      simp only [List.map_cons, ih]
      congr 1
      by_cases h : (r.user_id == w) = true
      · rw [if_pos h, hg]
      · rw [if_neg h]

theorem merge_one_WF (env : SyncEnv) (remote : List Row) (row : Row)
    (remote₂ : List Row) (h : merge_one env remote row = .ok remote₂)
    (hwf : WF remote) : WF remote₂ := by
  unfold merge_one at h
  by_cases hf : env.fail row.user_id = true
  · rw [if_pos hf] at h; exact absurd h (by simp)
  · rw [if_neg hf] at h
    cases hl : dbLookup remote row.user_id with
    | some r =>
        rw [hl] at h
        rw [← Except.ok.inj h]
        unfold WF dbUpdateClicks
        rw [map_uid_map_guard remote row.user_id
          (fun x => ⟨x.user_id, x.username, r.clicks + row.clicks⟩)
          (fun x => rfl)]
        exact hwf
    | none =>
        rw [hl] at h
        rw [← Except.ok.inj h]
        unfold WF
        rw [List.map_append]
        have hnot : row.user_id ∉ remote.map Row.user_id :=
          not_mem_uid_of_dbLookup_none remote row.user_id hl
        have hwf' : (remote.map Row.user_id).Nodup := hwf
        simp [List.nodup_append, hwf', hnot]

theorem merge_all_WF (env : SyncEnv) (snap : List Row) :
    ∀ remote remote', merge_all env remote snap = .ok remote' →
      WF remote → WF remote' := by
  induction snap with
  | nil =>
      intro remote remote' h hwf
      rw [← Except.ok.inj h]
      exact hwf
  | cons row rest ih =>
      intro remote remote' h hwf
      unfold merge_all at h
      split at h
      · exact absurd h (by simp)
      · rename_i remote₂ heq
        exact ih remote₂ remote' h (merge_one_WF env remote row remote₂ heq hwf)

theorem merge_all_spec (env : SyncEnv) (snap : List Row) :
    ∀ remote remote', merge_all env remote snap = .ok remote' → ∀ u,
      countOf remote' u = countOf remote u + snapClicks snap u ∧
      ((dbLookup remote u).isSome = true ∨ u ∈ snap.map Row.user_id →
        (dbLookup remote' u).isSome = true) := by
  induction snap with
  | nil =>
      intro remote remote' h u
      rw [← Except.ok.inj h]
      refine ⟨by simp [snapClicks], ?_⟩
      rintro (hs | hs)
      · exact hs
      · simp at hs
  | cons row rest ih =>
      intro remote remote' h u
      unfold merge_all at h
      split at h
      · exact absurd h (by simp)
      · rename_i remote₂ heq
        obtain ⟨hc, hs⟩ := ih remote₂ remote' h u
        by_cases hru : row.user_id = u
        · obtain ⟨hc1, hs1⟩ := merge_one_count_self env remote row remote₂ heq
          rw [hru] at hc1 hs1
          constructor
          · have hsn : snapClicks (row :: rest) u
                = row.clicks + snapClicks rest u := by
              simp [snapClicks, List.filter_cons, hru]
            rw [hc, hc1, hsn]
            omega
          · intro _
            exact hs (Or.inl hs1)
        · have hlk := merge_one_lookup_ne env remote row remote₂ heq u hru
          constructor
          · have hco : countOf remote₂ u = countOf remote u := by
              unfold countOf; rw [hlk]
            have hsn : snapClicks (row :: rest) u = snapClicks rest u := by
              simp [snapClicks, List.filter_cons, hru]
            rw [hc, hco, hsn]
          · intro hor
            apply hs
            cases hor with
            | inl hsome => exact Or.inl (by rw [hlk]; exact hsome)
            | inr hmem =>
                simp only [List.map_cons, List.mem_cons] at hmem
                cases hmem with
                | inl he => exact absurd he.symm hru
                | inr hm => exact Or.inr hm

theorem merge_all_fails_of_mem (env : SyncEnv) (snap : List Row) :
    ∀ remote a, a ∈ snap.map Row.user_id → env.fail a = true →
      ∃ r', merge_all env remote snap = .error r' := by
  induction snap with
  | nil =>
      intro remote a hmem _
      simp at hmem
  | cons row rest ih =>
      intro remote a hmem hfail
      unfold merge_all
      by_cases hf : env.fail row.user_id = true
      · refine ⟨remote, ?_⟩
        unfold merge_one
        rw [if_pos hf]
      · cases hm : merge_one env remote row with
        | error e =>
            unfold merge_one at hm
            rw [if_neg hf] at hm
            cases hl : dbLookup remote row.user_id with
            | some r => rw [hl] at hm; exact absurd hm (by simp)
            | none => rw [hl] at hm; exact absurd hm (by simp)
        | ok remote₂ =>
            simp only [List.map_cons, List.mem_cons] at hmem
            cases hmem with
            | inl he =>
                rw [he] at hfail
                exact absurd hfail hf
            | inr hm2 =>
                obtain ⟨r', hr'⟩ := ih remote₂ a hm2 hfail
                exact ⟨r', hr'⟩

/-! ## Structure of a successful tick -/

theorem sync_tick_ok_elim (snap localDb remote : List Row) (env : SyncEnv)
    (out : List Row × List Row) (hne : snap ≠ [])
    (hok : sync_tick snap localDb remote env = .ok out) :
    merge_all env remote snap = .ok out.2 ∧
    out.1 = out.2.foldl upsertClicks (remove_snapshotted snap localDb) := by
  unfold sync_tick at hok
  rw [if_neg hne] at hok
  split at hok
  · exact absurd hok (by simp)
  · rename_i remote' heq
    by_cases hc : env.failCommit = true
    · rw [if_pos hc] at hok; exact absurd hok (by simp)
    · rw [if_neg hc] at hok
      by_cases hr : env.failReadAll = true
      · rw [if_pos hr] at hok; exact absurd hok (by simp)
      · rw [if_neg hr] at hok
        rw [← Except.ok.inj hok]
        exact ⟨heq, rfl⟩

/-! ## Sortedness of the insertion model of `ORDER BY clicks DESC` -/

theorem insertByClicks_perm (r : Row) (l : List Row) :
    (insertByClicks r l).Perm (r :: l) := by
  induction l with
  | nil => exact List.Perm.refl _
  | cons q qs ih =>
      unfold insertByClicks
      by_cases h : q.clicks < r.clicks
      · rw [if_pos h]
      · rw [if_neg h]
        exact (ih.cons q).trans (List.Perm.swap r q qs)

theorem sortByClicksDesc_perm (db : List Row) :
    db.Perm (sortByClicksDesc db) := by
  induction db with
  | nil => exact List.Perm.refl _
  | cons x xs ih =>
      exact (ih.cons x).trans (insertByClicks_perm x (sortByClicksDesc xs)).symm

theorem mem_insertByClicks (x r : Row) (l : List Row)
    (h : x ∈ insertByClicks r l) : x = r ∨ x ∈ l :=
  List.mem_cons.mp ((insertByClicks_perm r l).mem_iff.mp h)

theorem sorted_insertByClicks (r : Row) (l : List Row)
    (h : SortedDescClicks l) : SortedDescClicks (insertByClicks r l) := by
  induction l with
  | nil => simp [insertByClicks, SortedDescClicks]
  | cons q qs ih =>
      unfold SortedDescClicks at h ⊢
      rw [List.pairwise_cons] at h
      unfold insertByClicks
      by_cases hlt : q.clicks < r.clicks
      · rw [if_pos hlt]
        refine List.Pairwise.cons ?_ (List.Pairwise.cons h.1 h.2)
        intro x hx
        rcases List.mem_cons.mp hx with he | hm
        · rw [he]; exact le_of_lt hlt
        · exact le_trans (h.1 x hm) (le_of_lt hlt)
      · rw [if_neg hlt]
        push_neg at hlt
        refine List.Pairwise.cons ?_ (ih h.2)
        intro x hx
        rcases mem_insertByClicks x r qs hx with he | hm
        · rw [he]; exact hlt
        · exact h.1 x hm

theorem sorted_sortByClicksDesc (db : List Row) :
    SortedDescClicks (sortByClicksDesc db) := by
  induction db with
  | nil => exact List.Pairwise.nil
  | cons x xs ih => exact sorted_insertByClicks x _ ih

/-! ## The claims -/

/-- C2: the spec requires the removal step of a reconciliation pass to
delete only snapshotted rows whose count is unchanged since the
snapshot, so that a click arriving between snapshot and removal is not
dropped.  The code's `DELETE FROM local_clicks WHERE user_id IN (...)`
(main.py lines 118-120) is unconditional: here a row snapshotted at
count 2 and incremented to 3 before removal is deleted anyway, and the
completed tick leaves both stores at 2 — the third click is lost. -/
theorem c2_removal_unconditional :
    record_click [⟨7, "x".data, 2⟩] 7 = [⟨7, "x".data, 3⟩] ∧
    countOf [⟨7, "x".data, 3⟩] 7 ≠ countOf [⟨7, "x".data, 2⟩] 7 ∧
    remove_snapshotted [⟨7, "x".data, 2⟩] [⟨7, "x".data, 3⟩] = [] ∧
    sync_tick [⟨7, "x".data, 2⟩] [⟨7, "x".data, 3⟩] [] envOk
      = .ok ([⟨7, "x".data, 2⟩], [⟨7, "x".data, 2⟩]) :=
  ⟨rfl, by decide, rfl, rfl⟩

/-- C5: a payload whose hash verifies but whose user claim is a JSON
object without an `id` member makes `auth_endpoint` raise an uncaught
`KeyError` (`int(user_obj["id"])` on line 164 sits outside the `try` of
lines 160-163), a server crash rather than the rejection the spec
requires. -/
theorem c5_unparseable_user_crashes :
    check_webapp_signature tokenS payloadNoId = true ∧
    auth_endpoint tokenS (some payloadNoId) [] = .unhandled "KeyError".data :=
  ⟨rfl, rfl⟩

/-- C6: `record_click` creates an absent row with count 1 and otherwise
increments the existing count by exactly 1; three clicks for user 42
starting from an empty store leave the row at count 3, which the stats
query reports. -/
theorem c6_increment_and_scenario (db : List Row) (uid : Int) :
    (dbLookup db uid = none →
      record_click db uid = db ++ [⟨uid, "Unknown".data, 1⟩]) ∧
    (∀ r, dbLookup db uid = some r →
      countOf (record_click db uid) uid = r.clicks + 1) ∧
    record_click (record_click (record_click [] 42) 42) 42
      = [⟨42, "Unknown".data, 3⟩] ∧
    get_stats (record_click (record_click (record_click [] 42) 42) 42)
      = [("Unknown".data, 3)] := by
  refine ⟨?_, ?_, rfl, rfl⟩
  · intro h
    unfold record_click
    rw [(dbLookup_none_iff db uid).mp h, if_neg Bool.false_ne_true]
  · intro r h
    have hany : (db.any fun x => x.user_id == uid) = true := by
      cases hx : (db.any fun x => x.user_id == uid) with
      | true => rfl
      | false =>
          rw [(dbLookup_none_iff db uid).mpr hx] at h
          cases h
    unfold record_click
    rw [if_pos hany]
    unfold countOf
    rw [dbLookup_map_guard_self db uid
      (fun x => ⟨x.user_id, x.username, x.clicks + 1⟩) (fun x => rfl) r h]
    rfl

theorem c6_witness :
    record_click [] 42 = [] ++ [⟨42, "Unknown".data, 1⟩] ∧
    countOf (record_click [⟨42, "Unknown".data, 1⟩] 42) 42 = 1 + 1 :=
  ⟨(c6_increment_and_scenario [] 42).1 rfl,
   (c6_increment_and_scenario [⟨42, "Unknown".data, 1⟩] 42).2.1
     ⟨42, "Unknown".data, 1⟩ rfl⟩

/-- C10: recording a click for an absent user creates the local row with
username `"Unknown"` (the bot handler performs the identical update),
and a read-or-init on an existing row returns its count and leaves the
table — including the stored username — unchanged. -/
theorem c10_unknown_username (db : List Row) (uid : Int) (r : Row)
    (name : List Char) :
    (dbLookup db uid = none →
      dbLookup (record_click db uid) uid = some ⟨uid, "Unknown".data, 1⟩ ∧
      handle_webapp_data_update db uid = record_click db uid) ∧
    (dbLookup db uid = some r → read_or_init db uid name = (r.clicks, db)) := by
  constructor
  · intro h
    constructor
    · unfold record_click
      rw [(dbLookup_none_iff db uid).mp h, if_neg Bool.false_ne_true]
      rw [dbLookup_append_none db _ uid h]
      simp [dbLookup]
    · rfl
  · intro h
    simp [read_or_init, h]

theorem c10_witness :
    dbLookup (record_click [] 5) 5 = some ⟨5, "Unknown".data, 1⟩ ∧
    read_or_init [⟨5, "x".data, 3⟩] 5 "bob".data = (3, [⟨5, "x".data, 3⟩]) :=
  ⟨((c10_unknown_username [] 5 ⟨5, "x".data, 3⟩ "bob".data).1 rfl).1,
   (c10_unknown_username [⟨5, "x".data, 3⟩] 5 ⟨5, "x".data, 3⟩ "bob".data).2 rfl⟩

/-- C8: an exception raised inside a reconciliation tick is caught by
the per-tick `try/except` (main.py lines 97-140): the loop body returns
the connection-visible state instead of propagating, and the loop goes
on to process the remaining ticks. -/
theorem c8_errors_never_kill_loop (choose : List Row → List Row)
    (env : SyncEnv) (rest : List SyncEnv) (s : List Row × List Row)
    (e : SyncErr) (h : sync_tick (choose s.1) s.1 s.2 env = .error e) :
    sync_loop_body choose env s = (e.localState, e.remoteState) ∧
    run_sync_loop choose (env :: rest) s
      = run_sync_loop choose rest (e.localState, e.remoteState) := by
  have hb : sync_loop_body choose env s = (e.localState, e.remoteState) := by
    unfold sync_loop_body
    rw [h]
  refine ⟨hb, ?_⟩
  show run_sync_loop choose rest (sync_loop_body choose env s) = _
  rw [hb]

theorem c8_witness :
    run_sync_loop (fun l => l) [envFailAll, envOk] ([⟨1, "a".data, 1⟩], [])
      = run_sync_loop (fun l => l) [envOk] ([⟨1, "a".data, 1⟩], []) :=
  (c8_errors_never_kill_loop (fun l => l) envFailAll [envOk]
    ([⟨1, "a".data, 1⟩], []) ⟨[⟨1, "a".data, 1⟩], []⟩ rfl).2

/-- C3, counterexample: the snapshot holds user 2 (merge succeeds,
remote 10 becomes 15 = 10 + 5) before user 1, whose remote call fails.
The claim says user 2's local row is then cleared; in the code the
single per-tick `try/except` aborts the tick before any `DELETE` runs,
so user 2's local row is still present with count 5. -/
theorem c3_counterexample :
    sync_tick [⟨2, "b".data, 5⟩, ⟨1, "a".data, 4⟩]
        [⟨2, "b".data, 5⟩, ⟨1, "a".data, 4⟩]
        [⟨2, "b".data, 10⟩, ⟨1, "a".data, 20⟩] envFailUser1
      = .error ⟨[⟨2, "b".data, 5⟩, ⟨1, "a".data, 4⟩],
                [⟨2, "b".data, 15⟩, ⟨1, "a".data, 20⟩]⟩ ∧
    countOf [⟨2, "b".data, 15⟩, ⟨1, "a".data, 20⟩] 2 = 15 ∧
    sync_loop_body (fun l => l) envFailUser1
        ([⟨2, "b".data, 5⟩, ⟨1, "a".data, 4⟩],
         [⟨2, "b".data, 10⟩, ⟨1, "a".data, 20⟩])
      = ([⟨2, "b".data, 5⟩, ⟨1, "a".data, 4⟩],
         [⟨2, "b".data, 15⟩, ⟨1, "a".data, 20⟩]) ∧
    countOf [⟨2, "b".data, 5⟩, ⟨1, "a".data, 4⟩] 2 = 5 :=
  ⟨rfl, by decide, rfl, by decide⟩

/-- C3 as amended: when the remote merge fails for any user in the
snapshot, the whole tick raises, no `DELETE` runs, and the caught error
leaves the entire local table — the failing user's row and every other
row, cleared or not — exactly as it was; the loop retries on the next
tick. -/
theorem c3_amended_tick_aborts (choose : List Row → List Row)
    (env : SyncEnv) (localDb remote : List Row) (a : Int)
    (hmem : a ∈ (choose localDb).map Row.user_id)
    (hfail : env.fail a = true) :
    ∃ r', sync_tick (choose localDb) localDb remote env = .error ⟨localDb, r'⟩ ∧
      sync_loop_body choose env (localDb, remote) = (localDb, r') := by
  obtain ⟨r', hr'⟩ :=
    merge_all_fails_of_mem env (choose localDb) remote a hmem hfail
  have hne : choose localDb ≠ [] := by
    intro h0
    rw [h0] at hmem
    simp at hmem
  have htick : sync_tick (choose localDb) localDb remote env
      = .error ⟨localDb, r'⟩ := by
    unfold sync_tick
    rw [if_neg hne, hr']
  refine ⟨r', htick, ?_⟩
  unfold sync_loop_body
  rw [htick]

theorem c3_witness :
    ∃ r', sync_tick [⟨2, "b".data, 5⟩, ⟨1, "a".data, 4⟩]
        [⟨2, "b".data, 5⟩, ⟨1, "a".data, 4⟩]
        [⟨2, "b".data, 10⟩, ⟨1, "a".data, 20⟩] envFailUser1
        = .error ⟨[⟨2, "b".data, 5⟩, ⟨1, "a".data, 4⟩], r'⟩ ∧
      sync_loop_body (fun l => l) envFailUser1
        ([⟨2, "b".data, 5⟩, ⟨1, "a".data, 4⟩],
         [⟨2, "b".data, 10⟩, ⟨1, "a".data, 20⟩])
        = ([⟨2, "b".data, 5⟩, ⟨1, "a".data, 4⟩], r') :=
  c3_amended_tick_aborts (fun l => l) envFailUser1
    [⟨2, "b".data, 5⟩, ⟨1, "a".data, 4⟩]
    [⟨2, "b".data, 10⟩, ⟨1, "a".data, 20⟩] 1 (by decide) rfl

/-- C1, counterexample: user 1 has remote count 1 and local count 2.
One fully successful tick makes the remote count 3 = 1 + 2 as claimed,
but the final copy-back (lines 123-135) then writes the remote total
back into the local table: the local count is 3, not 0, and the sum of
the two views is 6, not the 3 the claim requires. -/
theorem c1_counterexample :
    sync_tick [⟨1, "a".data, 2⟩] [⟨1, "a".data, 2⟩] [⟨1, "a".data, 1⟩] envOk
      = .ok ([⟨1, "a".data, 3⟩], [⟨1, "a".data, 3⟩]) ∧
    countOf [⟨1, "a".data, 3⟩] 1 ≠ 0 ∧
    countOf [⟨1, "a".data, 3⟩] 1 + countOf [⟨1, "a".data, 3⟩] 1
      ≠ countOf [⟨1, "a".data, 2⟩] 1 + countOf [⟨1, "a".data, 1⟩] 1 :=
  ⟨rfl, by decide, by decide⟩

/-- C1 as amended: after one fully successful reconciliation pass whose
snapshot includes a user, the remote count is the old remote count plus
the snapshotted local clicks (R + L, as claimed), but the local count is
not reset to 0: the copy-back step leaves the local row equal to the new
remote total, so the pass preserves the sum only when R + L = 0. -/
theorem c1_amended_local_not_reset (snap localDb remote : List Row)
    (env : SyncEnv) (u : Int) (out : List Row × List Row)
    (hwf : WF remote) (hmem : u ∈ snap.map Row.user_id)
    (hok : sync_tick snap localDb remote env = .ok out) :
    countOf out.2 u = countOf remote u + snapClicks snap u ∧
    countOf out.1 u = countOf out.2 u := by
  have hne : snap ≠ [] := by
    intro h0
    rw [h0] at hmem
    simp at hmem
  obtain ⟨hmrg, hfold⟩ := sync_tick_ok_elim snap localDb remote env out hne hok
  obtain ⟨hcount, hsome⟩ := merge_all_spec env snap remote out.2 hmrg u
  refine ⟨hcount, ?_⟩
  have hs : (dbLookup out.2 u).isSome = true := hsome (Or.inr hmem)
  cases hl : dbLookup out.2 u with
  | none => rw [hl] at hs; cases hs
  | some r =>
      have hwf2 : WF out.2 := merge_all_WF env snap remote out.2 hmrg hwf
      obtain ⟨r', hr', hclick⟩ := dbLookup_foldl_upsert out.2
        (remove_snapshotted snap localDb) u r hwf2 hl
      rw [hfold]
      unfold countOf
      rw [hr', hl]
      exact hclick

theorem c1_witness :
    countOf [⟨1, "a".data, 3⟩] 1
      = countOf [⟨1, "a".data, 1⟩] 1 + snapClicks [⟨1, "a".data, 2⟩] 1 ∧
    countOf [⟨1, "a".data, 3⟩] 1 = countOf [⟨1, "a".data, 3⟩] 1 :=
  c1_amended_local_not_reset [⟨1, "a".data, 2⟩] [⟨1, "a".data, 2⟩]
    [⟨1, "a".data, 1⟩] envOk 1 ([⟨1, "a".data, 3⟩], [⟨1, "a".data, 3⟩])
    (by unfold WF; decide) (by decide) rfl

/-- C9: after a fully successful tick with a non-empty snapshot, the
copy-back loop (lines 123-135) has upserted every remote row into the
local table: each user present in the remote store has a local row whose
count equals that user's remote total. -/
theorem c9_remote_copied_back (snap localDb remote : List Row)
    (env : SyncEnv) (out : List Row × List Row) (hwf : WF remote)
    (hne : snap ≠ []) (hok : sync_tick snap localDb remote env = .ok out) :
    ∀ u r, dbLookup out.2 u = some r →
      ∃ r', dbLookup out.1 u = some r' ∧ r'.clicks = r.clicks := by
  obtain ⟨hmrg, hfold⟩ := sync_tick_ok_elim snap localDb remote env out hne hok
  intro u r hl
  have hwf2 : WF out.2 := merge_all_WF env snap remote out.2 hmrg hwf
  obtain ⟨r', hr', hclick⟩ := dbLookup_foldl_upsert out.2
    (remove_snapshotted snap localDb) u r hwf2 hl
  rw [hfold]
  exact ⟨r', hr', hclick⟩

theorem c9_witness :
    ∃ r', dbLookup [⟨1, "a".data, 2⟩] 1 = some r' ∧ r'.clicks = 2 :=
  c9_remote_copied_back [⟨1, "a".data, 2⟩] [] [] envOk
    ([⟨1, "a".data, 2⟩], [⟨1, "a".data, 2⟩]) (by unfold WF; decide)
    (by decide) rfl 1 ⟨1, "a".data, 2⟩ rfl

/-- C7, counterexample: the top-N query of line 100 orders by clicks
only.  For a table with two rows tied at 5 clicks, both orders of the
tie satisfy the query contract, so the snapshot is not a deterministic
function of the store contents, and the admissible output putting
user 2 before user 1 violates the claimed user-id-ascending tie
break. -/
theorem c7_counterexample :
    IsOrderByClicksDescLimit [⟨1, "a".data, 5⟩, ⟨2, "b".data, 5⟩] 2
      [⟨2, "b".data, 5⟩, ⟨1, "a".data, 5⟩] ∧
    IsOrderByClicksDescLimit [⟨1, "a".data, 5⟩, ⟨2, "b".data, 5⟩] 2
      [⟨1, "a".data, 5⟩, ⟨2, "b".data, 5⟩] ∧
    ([⟨2, "b".data, 5⟩, ⟨1, "a".data, 5⟩] : List Row)
      ≠ [⟨1, "a".data, 5⟩, ⟨2, "b".data, 5⟩] ∧
    ¬ TieBrokenByUid [⟨2, "b".data, 5⟩, ⟨1, "a".data, 5⟩] := by
  refine ⟨⟨[⟨2, "b".data, 5⟩, ⟨1, "a".data, 5⟩],
      List.Perm.swap (⟨2, "b".data, 5⟩ : Row) (⟨1, "a".data, 5⟩ : Row) [],
      ?_, rfl⟩,
    ⟨[⟨1, "a".data, 5⟩, ⟨2, "b".data, 5⟩], List.Perm.refl _, ?_, rfl⟩,
    by decide, ?_⟩
  · unfold SortedDescClicks
    decide
  · unfold SortedDescClicks
    decide
  · unfold TieBrokenByUid
    decide

/-- C7 as amended: every output the top-100 query can return is ordered
by clicks descending — the deterministic insertion model `topNImpl`
realises the query contract — but the contract leaves the relative
order of tied rows open, so no user-id tie break (and no determinism)
is guaranteed. -/
theorem c7_amended_sorted_only (db : List Row) (n : Nat) :
    IsOrderByClicksDescLimit db n (topNImpl db n) ∧
    ∀ out, IsOrderByClicksDescLimit db n out → SortedDescClicks out := by
  constructor
  · exact ⟨sortByClicksDesc db, sortByClicksDesc_perm db,
      sorted_sortByClicksDesc db, rfl⟩
  · rintro out ⟨sorted, _, hs, heq⟩
    rw [heq]
    exact List.Pairwise.sublist (List.take_sublist n sorted) hs

theorem c7_witness :
    SortedDescClicks (topNImpl [⟨1, "a".data, 5⟩, ⟨2, "b".data, 5⟩] 1) :=
  (c7_amended_sorted_only [⟨1, "a".data, 5⟩, ⟨2, "b".data, 5⟩] 1).2
    (topNImpl [⟨1, "a".data, 5⟩, ⟨2, "b".data, 5⟩] 1)
    (c7_amended_sorted_only [⟨1, "a".data, 5⟩, ⟨2, "b".data, 5⟩] 1).1

/-- C4, counterexample: `payloadDup` carries a correctly computed hash
over the parsed fields (a shadowed duplicate `a=1` plus `a=1` and the
hash), and verifies.  Changing one byte of the first, shadowed `a`
value (`a=1` to `a=2`) leaves `dict(parse_qsl(...))` unchanged, so the
mutated payload still verifies — contradicting the claim that any
single-byte mutation of a field value makes `verify` return false. -/
theorem c4_counterexample :
    check_webapp_signature tokenS payloadDup = true ∧
    dictGet (pyDict (parse_qsl payloadDup)) hashKey = some macDup ∧
    payloadDup.length = payloadDupMut.length ∧
    diffCount payloadDup payloadDupMut = 1 ∧
    check_webapp_signature tokenS payloadDupMut = true :=
  ⟨rfl, rfl, rfl, rfl, rfl⟩

/-- C4 as amended: `check_webapp_signature` returns true exactly when
the parsed payload's hash entry equals the HMAC-SHA-256 hex digest of
the canonical check string under the WebAppData-derived key — so a
mutation flips the verdict exactly when it changes this parsed
condition; a mutation invisible to `dict(parse_qsl(...))`, such as one
byte of a shadowed duplicate field value, leaves the verdict
unchanged. -/
theorem c4_amended_verify_iff (token s h : List Char)
    (hh : dictGet (pyDict (parse_qsl s)) hashKey = some h) :
    (check_webapp_signature token s = true ↔
      telegramMacHex token (dataCheckString (pyDict (parse_qsl s))) = h) ∧
    ∀ s', pyDict (parse_qsl s') = pyDict (parse_qsl s) →
      check_webapp_signature token s' = check_webapp_signature token s := by
  constructor
  · unfold check_webapp_signature check_core
    rw [hh]
    exact beq_iff_eq
  · intro s' hs
    unfold check_webapp_signature
    rw [hs]

theorem c4_witness :
    check_webapp_signature tokenS payloadScenario = true :=
  ((c4_amended_verify_iff tokenS payloadScenario macScenario rfl).1).mpr rfl

end ClickSync
